import Mathlib

/-!
Shallow embedding of src/main.py, a minimal HTTP directory-listing server,
together with proofs about the claims of its specification.

Python strings and bytes are both modelled as lists of characters (the data
is ASCII throughout).  The program runs on a POSIX platform, so os.sep is the
single character slash; os.path.join, os.path.dirname, str.strip, str.split
and dict update are embedded below following their CPython semantics.  The
filesystem is an external collaborator and is modelled by the structure FS.
-/

set_option autoImplicit false

namespace WebDirListing

/-- Python strings and bytes are modelled as lists of characters. -/
abbrev Str := List Char

/-- Removal of trailing copies of a character, as in the Python
str.rstrip with a single-character argument. -/
def rstripChar (c : Char) (s : Str) : Str :=
  (s.reverse.dropWhile (fun a => a == c)).reverse

/-- Removal of leading copies of a character, as in the Python
str.lstrip with a single-character argument. -/
def lstripChar (c : Char) (s : Str) : Str :=
  s.dropWhile (fun a => a == c)

/-- The Python str.strip with a single-character argument: strip the
character from both ends. -/
def pyStrip (c : Char) (s : Str) : Str :=
  rstripChar c (lstripChar c s)

/-- Embedding of posixpath.join on two arguments: an absolute second argument
replaces the first, otherwise the two are glued with a separator unless the
first is empty or already ends in one. -/
def pathJoin (a b : Str) : Str :=
  if b.head? = some '/' then b
  else if a = [] ∨ a.getLast? = some '/' then a ++ b
  else a ++ '/' :: b

/-- Embedding of posixpath.dirname: keep everything up to and including the
final slash, then strip trailing slashes unless the kept part is empty or
consists of slashes only. -/
def dirname (p : Str) : Str :=
  let head := (p.reverse.dropWhile (fun a => a != '/')).reverse
  if head = [] ∨ (∀ c ∈ head, c = '/') then head else rstripChar '/' head

/-- The Python bytes.split on the two-byte separator CRLF, keeping empty
chunks, as used by HTTPRequest.parse. -/
def splitCRLF : Str → List Str
  | [] => [[]]
  | '\r' :: '\n' :: rest => [] :: splitCRLF rest
  | c :: rest =>
    match splitCRLF rest with
    | [] => [[c]]
    | line :: ls => (c :: line) :: ls

/-- The Python split on a single-character separator, keeping empty chunks. -/
def splitChar (sep : Char) : Str → List Str
  | [] => [[]]
  | c :: rest =>
    if c = sep then [] :: splitChar sep rest
    else
      match splitChar sep rest with
      | [] => [[c]]
      | line :: ls => (c :: line) :: ls

/-- The replace of the platform separator by a forward slash performed by
DirListing.__dir_path_to_url_path; on POSIX, os.sep is itself the forward
slash, so every character is mapped to itself. -/
def replaceSepChar (s : Str) : Str :=
  s.map (fun c => if c = '/' then '/' else c)

/-- The filesystem collaborator: existence test, directory test and directory
enumeration, corresponding to os.path.exists, os.path.isdir and os.listdir. -/
structure FS where
  pexists : Str → Bool
  isdir : Str → Bool
  listdir : Str → List Str

/-- Errors raised by the embedded code and caught by nobody: the
AttributeError of a missing attribute and the NotADirectoryError of
os.listdir on a file. -/
inductive PyErr where
  | attributeError
  | notADirectoryError
deriving DecidableEq

/-- Embedding of DirListing.__url_path_to_dir_path: append a separator to a
nonempty url path, join with the current working directory, take dirname. -/
def url_path_to_dir_path (cwd url_path : Str) : Str :=
  let u := if url_path = [] then url_path else url_path ++ ['/']
  dirname (pathJoin cwd u)

/-- Embedding of DirListing.__dir_path_to_url_path: strip the working
directory as a prefix and rewrite separators to forward slashes; when the
input does not start with the working directory, or the stripped remainder is
empty, the result is the single slash. -/
def dir_path_to_url_path (cwd dir_path : Str) : Str :=
  let url_path :=
    if cwd.isPrefixOf dir_path then replaceSepChar (dir_path.drop cwd.length) else []
  if url_path = [] then ['/'] else url_path

/-- The attributes a DirListing object carries after construction. -/
structure DirListing where
  dir_path : Str
  is_root_dir : Bool
  parent_dir : Str
deriving DecidableEq

/-- Embedding of DirListing.__init__: the FileNotFoundError raised when the
resolved path does not exist is modelled by none. -/
def DirListing.make (fs : FS) (cwd url_path : Str) : Option DirListing :=
  let dir_path := url_path_to_dir_path cwd url_path
  if fs.pexists dir_path then
    let is_root_dir := url_path == []
    some { dir_path := dir_path
           is_root_dir := is_root_dir
           parent_dir := if is_root_dir then [] else dirname dir_path }
  else none

/-- Body of one iteration of the listing loop of
DirListing.get_hyperlinked_dir_listing: a hidden entry (leading dot)
contributes nothing, a directory entry becomes an anchor around the name plus
a trailing slash, any other entry is kept verbatim; every contribution ends
in a br tag. -/
def entry_html (fs : FS) (cwd dir_path f : Str) : Str :=
  if f.head? = some '.' then []
  else
    let f1 :=
      if fs.isdir (pathJoin dir_path f) then
        "<a href=\"".data ++ dir_path_to_url_path cwd (pathJoin dir_path f)
          ++ "\">".data ++ f ++ "/</a>".data
      else f
    f1 ++ "<br>".data

/-- The parent-directory anchor emitted for a non-root listing. -/
def parent_link_html (cwd parent_dir : Str) : Str :=
  "<a href=\"".data ++ dir_path_to_url_path cwd parent_dir
    ++ "\">[parent directory]</a><br>".data

/-- Embedding of DirListing.get_hyperlinked_dir_listing.  The os.listdir call
raises NotADirectoryError when the path exists but is not a directory; this is
the error branch.  The loop over entries is a fold in enumeration order, with
the continue on hidden entries reflected by entry_html returning nothing. -/
def get_hyperlinked_dir_listing (fs : FS) (cwd : Str) (dl : DirListing) :
    Except PyErr Str :=
  if fs.isdir dl.dir_path then
    let html0 := "<html><body>".data
    let html1 := if dl.is_root_dir then html0 else html0 ++ parent_link_html cwd dl.parent_dir
    let html2 := (fs.listdir dl.dir_path).foldl
      (fun acc f => acc ++ entry_html fs cwd dl.dir_path f) html1
    .ok (html2 ++ "</body></html>".data)
  else
    .error .notADirectoryError

/-- The attributes of a parsed HTTPRequest: the uri stays None when the
request line has fewer than two tokens. -/
structure HTTPRequest where
  method : Str
  uri : Option Str
  http_version : Str
deriving DecidableEq

/-- Embedding of HTTPRequest.parse: split the raw bytes on CRLF, take the
first line, split it on single spaces; token 0 is the method, token 1 (when
present) the uri, token 2 (when present) the http version, defaulting
otherwise to 1.1. -/
def HTTPRequest.parse (data : Str) : HTTPRequest :=
  let lines := splitCRLF data
  let request_line := lines.headD []
  let words := splitChar ' ' request_line
  { method := words.headD []
    uri := words[1]?
    http_version := (words[2]?).getD ("1.1".data) }

/-- The class attribute HTTPServer.headers: the base header dict, as an
association list in insertion order. -/
def headers : List (Str × Str) :=
  [("Server".data, "CrudeServer".data), ("Content-Type".data, "text/html".data)]

/-- The class attribute HTTPServer.status_codes. -/
def status_codes : List (Nat × Str) :=
  [(200, "OK".data), (404, "Not Found".data), (501, "Not Implemented".data)]

/-- Embedding of HTTPServer.response_line.  Every call site uses a code
present in status_codes; an absent code would raise KeyError in the source and
is never reached, so the default is irrelevant. -/
def response_line (status_code : Nat) : Str :=
  let reason := (status_codes.lookup status_code).getD []
  "HTTP/1.1 ".data ++ (Nat.repr status_code).data ++ " ".data ++ reason ++ "\r\n".data

/-- Update of a Python dict, on association lists whose keys are unique: an
existing key keeps its position and receives the new value, a new key is
appended at the end; entries of the update are applied left to right. -/
def dict_update (d e : List (Str × Str)) : List (Str × Str) :=
  e.foldl
    (fun acc kv =>
      if acc.any (fun p => p.1 == kv.1) then
        acc.map (fun p => if p.1 = kv.1 then (p.1, kv.2) else p)
      else acc ++ [kv])
    d

/-- The serialization loop of HTTPServer.response_headers: one line per entry,
key, colon, space, value, CRLF, in dict iteration order. -/
def format_headers (d : List (Str × Str)) : Str :=
  d.foldl (fun acc p => acc ++ p.1 ++ ": ".data ++ p.2 ++ "\r\n".data) []

/-- Embedding of HTTPServer.response_headers: copy the base headers, update
the copy with the extra headers when they are present and nonempty (None and
an empty dict are both falsy in the source test), then serialize. -/
def response_headers (extra_headers : Option (List (Str × Str))) : Str :=
  let headers_copy := headers
  let headers_copy :=
    match extra_headers with
    | some e => if e = [] then headers_copy else dict_update headers_copy e
    | none => headers_copy
  format_headers headers_copy

/-- State-passing form of response_headers over an explicit current value of
the shared class attribute HTTPServer.headers.  The source copies the dict and
applies the update only to the copy, so the attribute value handed back is the
one handed in. -/
def response_headers_st (hs : List (Str × Str))
    (extra_headers : Option (List (Str × Str))) : List (Str × Str) × Str :=
  let headers_copy := hs
  let headers_copy :=
    match extra_headers with
    | some e => if e = [] then headers_copy else dict_update headers_copy e
    | none => headers_copy
  (hs, format_headers headers_copy)

/-- Embedding of HTTPServer.handle_GET.  A request whose uri is None raises
AttributeError at request.uri.strip before anything else happens.  Only the
FileNotFoundError of the DirListing constructor is caught (the 404 branch);
the NotADirectoryError of the listing propagates. -/
def handle_GET (fs : FS) (cwd : Str) (request : HTTPRequest) : Except PyErr Str :=
  match request.uri with
  | none => .error .attributeError
  | some uri =>
    let url_path := pyStrip '/' uri
    match DirListing.make fs cwd url_path with
    | some dl =>
      match get_hyperlinked_dir_listing fs cwd dl with
      | .ok body =>
        .ok (response_line 200
          ++ response_headers (some [("Content-Type".data, "text/html".data)])
          ++ "\r\n".data ++ body)
      | .error e => .error e
    | none =>
      .ok (response_line 404 ++ response_headers none
        ++ "\r\n".data ++ "<h1>404 Not Found</h1>".data)

/-- Embedding of HTTPServer.HTTP_501_handler. -/
def HTTP_501_handler (_request : HTTPRequest) : Str :=
  response_line 501 ++ response_headers none
    ++ "\r\n".data ++ "<h1>501 Not Implemented</h1>".data

/-- Embedding of HTTPServer.handle_request.  The getattr dispatch looks up an
attribute named handle_ followed by the method token; the only such attributes
of the server are handle_GET and handle_request itself.  A method token equal
to the word request therefore selects handle_request, which is then called on
the parsed HTTPRequest object instead of raw bytes and raises AttributeError
when HTTPRequest.parse calls split on that object; this error escapes, since
the except clause only guards the getattr itself.  Every other token besides
GET makes the getattr fail and is answered by HTTP_501_handler. -/
def handle_request (fs : FS) (cwd : Str) (data : Str) : Except PyErr Str :=
  let request := HTTPRequest.parse data
  if request.method = "GET".data then handle_GET fs cwd request
  else if request.method = "request".data then .error .attributeError
  else .ok (HTTP_501_handler request)

/-- Modelled from the spec: collapsing of dot and dotdot segments of an
absolute path, the normalization the specification speaks about; src performs
no such normalization and no containment check, so this definition exists only
to state the containment property. -/
def normalizeSegs : List Str → List Str → List Str
  | stack, [] => stack.reverse
  | stack, seg :: rest =>
    if seg = [] ∨ seg = ".".data then normalizeSegs stack rest
    else if seg = "..".data then normalizeSegs (stack.drop 1) rest
    else normalizeSegs (seg :: stack) rest

/-- Joining of path segments with slashes. -/
def joinSlash : List Str → Str
  | [] => []
  | [s] => s
  | s :: rest => s ++ '/' :: joinSlash rest

/-- Modelled from the spec: the normalized form of an absolute path. -/
def normalizePath (p : Str) : Str :=
  '/' :: joinSlash (normalizeSegs [] (splitChar '/' p))

/-- Modelled from the spec: a path stays inside the root when its normalized
form is the normalized root itself or extends it below a separator. -/
def insideRoot (root p : Str) : Prop :=
  normalizePath p = normalizePath root ∨
    (normalizePath root ++ ['/']) <+: normalizePath p

/-- A concrete filesystem for witnesses: the working directory contains a
plain file, a subdirectory and a hidden file, and the parent of the working
directory exists as well.  The entry with a trailing dotdot component is the
same directory as the parent, reflecting how the operating system resolves
dotdot when the unnormalized path is handed to it. -/
def demoFS : FS where
  pexists p := decide (p ∈ ["/srv".data, "/srv/www".data, "/srv/www/sub".data,
    "/srv/www/a.txt".data, "/srv/www/.hidden".data, "/srv/www/..".data])
  isdir p := decide (p ∈ ["/srv".data, "/srv/www".data, "/srv/www/sub".data,
    "/srv/www/..".data])
  listdir p :=
    if p = "/srv/www".data then ["a.txt".data, "sub".data, ".hidden".data]
    else if p = "/srv/www/sub".data then []
    else if p = "/srv/www/..".data then ["www".data, "secret.txt".data]
    else []

/-- The working directory of the concrete filesystem. -/
def cwdDemo : Str := "/srv/www".data

/-- Concatenation of the images of a function over a list, used to describe
the listing loop entry by entry. -/
def concatMap (g : Str → Str) : List Str → Str
  | [] => []
  | f :: rest => g f ++ concatMap g rest

theorem foldl_concat (g : Str → Str) :
    ∀ (l : List Str) (init : Str),
      l.foldl (fun acc f => acc ++ g f) init = init ++ concatMap g l := by
  intro l
  induction l with
  | nil => intro init; simp [concatMap]
  | cons f rest ih => intro init; simp [concatMap, ih]

theorem concatMap_filter (g h : Str → Str) (p : Str → Bool) (l : List Str)
    (hg : ∀ f, p f = false → g f = [])
    (hgh : ∀ f, p f = true → g f = h f) :
    concatMap g l = concatMap h (l.filter p) := by
  induction l with
  | nil => rfl
  | cons f rest ih =>
    cases hp : p f with
    | false => simp [concatMap, List.filter_cons, hp, hg f hp, ih]
    | true => simp [concatMap, List.filter_cons, hp, hgh f hp, ih]

/-- The full html produced by a successful listing, written entry by entry. -/
def render_all (fs : FS) (cwd : Str) (dl : DirListing) : Str :=
  "<html><body>".data
    ++ (if dl.is_root_dir then [] else parent_link_html cwd dl.parent_dir)
    ++ concatMap (entry_html fs cwd dl.dir_path) (fs.listdir dl.dir_path)
    ++ "</body></html>".data

theorem listing_ok (fs : FS) (cwd : Str) (dl : DirListing)
    (hdir : fs.isdir dl.dir_path = true) :
    get_hyperlinked_dir_listing fs cwd dl = Except.ok (render_all fs cwd dl) := by
  unfold get_hyperlinked_dir_listing render_all
  rw [if_pos hdir]
  simp only [foldl_concat]
  cases h : dl.is_root_dir <;> simp [h, List.append_assoc]

theorem make_of_pexists (fs : FS) (cwd url_path : Str)
    (hex : fs.pexists (url_path_to_dir_path cwd url_path) = true) :
    DirListing.make fs cwd url_path =
      some { dir_path := url_path_to_dir_path cwd url_path
             is_root_dir := url_path == []
             parent_dir :=
               if (url_path == []) then [] else dirname (url_path_to_dir_path cwd url_path) } := by
  unfold DirListing.make
  rw [if_pos hex]

/-- C2: the spec says a request of raw bytes GET CRLF CRLF (a method token but
no uri token) parses to an empty uri and is served as a 200 root listing.  The
parser indeed yields no uri token, but the uri attribute stays None, and
handle_GET then evaluates None.strip, raising an uncaught AttributeError
instead of producing any response. -/
theorem handle_request_no_uri_raises (fs : FS) (cwd : Str) :
    HTTPRequest.parse "GET\r\n\r\n".data =
      { method := "GET".data, uri := none, http_version := "1.1".data } ∧
    handle_request fs cwd "GET\r\n\r\n".data = Except.error PyErr.attributeError := by
  exact ⟨by decide, rfl⟩

/-- C3 counterexample: the parsed method token request is not GET, yet
handle_request does not return a 501 response; the getattr dispatch finds the
method handle_request itself, whose call raises an uncaught AttributeError. -/
theorem method_request_not_501 :
    (HTTPRequest.parse "request /\r\n\r\n".data).method ≠ "GET".data ∧
    handle_request demoFS cwdDemo "request /\r\n\r\n".data =
      Except.error PyErr.attributeError := by
  exact ⟨by decide, rfl⟩

/-- C3 amended: for every parsed method token other than GET and request,
handle_request returns the 501 response with body exactly
the h1 501 Not Implemented line; the token request instead dispatches to
handle_request itself, which raises an uncaught AttributeError. -/
theorem handle_request_other_methods_501 (fs : FS) (cwd : Str) (data : Str)
    (h1 : (HTTPRequest.parse data).method ≠ "GET".data)
    (h2 : (HTTPRequest.parse data).method ≠ "request".data) :
    handle_request fs cwd data =
      Except.ok (response_line 501 ++ response_headers none
        ++ "\r\n".data ++ "<h1>501 Not Implemented</h1>".data) := by
  unfold handle_request
  rw [if_neg h1, if_neg h2]
  rfl

theorem handle_request_other_methods_501_witness :
    (HTTPRequest.parse "POST / HTTP/1.1\r\n\r\n".data).method ≠ "GET".data ∧
    (HTTPRequest.parse "POST / HTTP/1.1\r\n\r\n".data).method ≠ "request".data ∧
    handle_request demoFS cwdDemo "POST / HTTP/1.1\r\n\r\n".data =
      Except.ok (response_line 501 ++ response_headers none
        ++ "\r\n".data ++ "<h1>501 Not Implemented</h1>".data) :=
  ⟨by decide, by decide,
    handle_request_other_methods_501 demoFS cwdDemo ("POST / HTTP/1.1\r\n\r\n".data)
      (by decide) (by decide)⟩

/-- C4: a GET request whose uri resolves to a nonexistent filesystem path is
answered with a well formed 404 response whose body is exactly the
h1 404 Not Found line; the FileNotFoundError is caught locally and never
escapes. -/
theorem handle_request_missing_404 (fs : FS) (cwd : Str) (data u : Str)
    (hm : (HTTPRequest.parse data).method = "GET".data)
    (hu : (HTTPRequest.parse data).uri = some u)
    (hne : fs.pexists (url_path_to_dir_path cwd (pyStrip '/' u)) = false) :
    handle_request fs cwd data =
      Except.ok (response_line 404 ++ response_headers none
        ++ "\r\n".data ++ "<h1>404 Not Found</h1>".data) := by
  unfold handle_request
  rw [if_pos hm]
  have hmk : DirListing.make fs cwd (pyStrip '/' u) = none := by
    unfold DirListing.make
    rw [if_neg (by simp [hne])]
  unfold handle_GET
  rw [hu]
  simp [hmk]

theorem handle_request_missing_404_witness :
    (HTTPRequest.parse "GET /missing HTTP/1.1\r\n\r\n".data).method = "GET".data ∧
    (HTTPRequest.parse "GET /missing HTTP/1.1\r\n\r\n".data).uri = some ("/missing".data) ∧
    demoFS.pexists (url_path_to_dir_path cwdDemo (pyStrip '/' ("/missing".data))) = false ∧
    handle_request demoFS cwdDemo "GET /missing HTTP/1.1\r\n\r\n".data =
      Except.ok (response_line 404 ++ response_headers none
        ++ "\r\n".data ++ "<h1>404 Not Found</h1>".data) :=
  ⟨by decide, by decide, by decide,
    handle_request_missing_404 demoFS cwdDemo ("GET /missing HTTP/1.1\r\n\r\n".data)
      ("/missing".data) (by decide) (by decide) (by decide)⟩

/-- C9: when the stripped uri resolves to a path that exists but is not a
directory, the DirListing constructor succeeds (the existence check does not
distinguish files from directories), os.listdir then raises
NotADirectoryError, and no handler catches it, so handle_GET produces neither
a 200 nor a 404 response. -/
theorem handle_GET_file_raises (fs : FS) (cwd : Str) (u : Str)
    (hex : fs.pexists (url_path_to_dir_path cwd (pyStrip '/' u)) = true)
    (hnd : fs.isdir (url_path_to_dir_path cwd (pyStrip '/' u)) = false) :
    (DirListing.make fs cwd (pyStrip '/' u)).isSome = true ∧
    handle_GET fs cwd { method := "GET".data, uri := some u, http_version := "1.1".data } =
      Except.error PyErr.notADirectoryError := by
  have hmk := make_of_pexists fs cwd (pyStrip '/' u) hex
  constructor
  · rw [hmk]
    rfl
  · have hls : get_hyperlinked_dir_listing fs cwd
        { dir_path := url_path_to_dir_path cwd (pyStrip '/' u)
          is_root_dir := pyStrip '/' u == []
          parent_dir :=
            if (pyStrip '/' u == []) then []
            else dirname (url_path_to_dir_path cwd (pyStrip '/' u)) } =
        Except.error PyErr.notADirectoryError := by
      unfold get_hyperlinked_dir_listing
      rw [if_neg (by simp [hnd])]
    unfold handle_GET
    simp only [hmk]
    rw [hls]

theorem handle_GET_file_raises_witness :
    demoFS.pexists (url_path_to_dir_path cwdDemo (pyStrip '/' ("/a.txt".data))) = true ∧
    demoFS.isdir (url_path_to_dir_path cwdDemo (pyStrip '/' ("/a.txt".data))) = false ∧
    ((DirListing.make demoFS cwdDemo (pyStrip '/' ("/a.txt".data))).isSome = true ∧
      handle_GET demoFS cwdDemo
        { method := "GET".data, uri := some ("/a.txt".data), http_version := "1.1".data } =
        Except.error PyErr.notADirectoryError) :=
  ⟨by decide, by decide,
    handle_GET_file_raises demoFS cwdDemo ("/a.txt".data) (by decide) (by decide)⟩

/-- C10: response_headers works on a copy of the shared base header mapping;
the mapping handed back is the one handed in, the serialized block agrees with
the stateless form, and the bytes of a later call do not depend on the extra
headers of an earlier call. -/
theorem response_headers_frame (hs : List (Str × Str))
    (e1 e2 : Option (List (Str × Str))) :
    (response_headers_st hs e1).1 = hs ∧
    (response_headers_st headers e1).2 = response_headers e1 ∧
    (response_headers_st ((response_headers_st hs e1).1) e2).2 =
      (response_headers_st hs e2).2 := by
  exact ⟨rfl, rfl, rfl⟩

/-- C6: in a successful listing, entries with a leading dot are absent, and
every remaining entry contributes, once and in enumeration order, either its
name as plain text followed by a br tag, or, when it is a directory, an
anchor whose href is the unresolved full path, wrapping the name plus a
trailing slash, followed by a br tag. -/
theorem listing_entry_rendering (fs : FS) (cwd : Str) (dl : DirListing)
    (hdir : fs.isdir dl.dir_path = true) :
    get_hyperlinked_dir_listing fs cwd dl =
      Except.ok ("<html><body>".data
        ++ (if dl.is_root_dir then [] else parent_link_html cwd dl.parent_dir)
        ++ concatMap (fun f =>
            (if fs.isdir (pathJoin dl.dir_path f) then
              "<a href=\"".data ++ dir_path_to_url_path cwd (pathJoin dl.dir_path f)
                ++ "\">".data ++ f ++ "/</a>".data
             else f) ++ "<br>".data)
          ((fs.listdir dl.dir_path).filter (fun f => ¬ f.head? = some '.'))
        ++ "</body></html>".data) := by
  rw [listing_ok fs cwd dl hdir]
  unfold render_all
  have hent := concatMap_filter (entry_html fs cwd dl.dir_path)
    (fun f =>
      (if fs.isdir (pathJoin dl.dir_path f) then
        "<a href=\"".data ++ dir_path_to_url_path cwd (pathJoin dl.dir_path f)
          ++ "\">".data ++ f ++ "/</a>".data
       else f) ++ "<br>".data)
    (fun f => ¬ f.head? = some '.') (fs.listdir dl.dir_path)
    (by
      intro f hp
      simp only [decide_eq_false_iff_not, not_not] at hp
      unfold entry_html
      rw [if_pos hp])
    (by
      intro f hp
      simp only [decide_eq_true_eq] at hp
      unfold entry_html
      rw [if_neg hp])
  rw [hent]

/-- The DirListing built for the root of the concrete filesystem. -/
def dlRootDemo : DirListing :=
  { dir_path := cwdDemo, is_root_dir := true, parent_dir := [] }

/-- The DirListing built for the subdirectory of the concrete filesystem. -/
def dlSubDemo : DirListing :=
  { dir_path := "/srv/www/sub".data, is_root_dir := false, parent_dir := "/srv/www".data }

theorem listing_entry_rendering_witness :
    demoFS.isdir dlRootDemo.dir_path = true ∧
    get_hyperlinked_dir_listing demoFS cwdDemo dlRootDemo =
      Except.ok ("<html><body>".data
        ++ (if dlRootDemo.is_root_dir then []
            else parent_link_html cwdDemo dlRootDemo.parent_dir)
        ++ concatMap (fun f =>
            (if demoFS.isdir (pathJoin dlRootDemo.dir_path f) then
              "<a href=\"".data
                ++ dir_path_to_url_path cwdDemo (pathJoin dlRootDemo.dir_path f)
                ++ "\">".data ++ f ++ "/</a>".data
             else f) ++ "<br>".data)
          ((demoFS.listdir dlRootDemo.dir_path).filter (fun f => ¬ f.head? = some '.'))
        ++ "</body></html>".data) :=
  ⟨by decide, listing_entry_rendering demoFS cwdDemo dlRootDemo (by decide)⟩

/-- C7: after a successful construction, is_root_dir holds exactly when the
url path was empty; a successful root listing carries no parent anchor, and a
successful non-root listing carries exactly one, placed right after the
opening tags, whose href is the unresolved parent directory (the dirname of
the resolved path). -/
theorem listing_parent_link (fs : FS) (cwd url_path : Str) (dl : DirListing)
    (hmk : DirListing.make fs cwd url_path = some dl) :
    (dl.is_root_dir = true ↔ url_path = []) ∧
    (url_path ≠ [] → dl.parent_dir = dirname dl.dir_path) ∧
    (fs.isdir dl.dir_path = true →
      get_hyperlinked_dir_listing fs cwd dl =
        Except.ok ("<html><body>".data
          ++ (if url_path = [] then []
              else "<a href=\"".data ++ dir_path_to_url_path cwd dl.parent_dir
                ++ "\">[parent directory]</a><br>".data)
          ++ concatMap (entry_html fs cwd dl.dir_path) (fs.listdir dl.dir_path)
          ++ "</body></html>".data)) := by
  unfold DirListing.make at hmk
  by_cases hex : fs.pexists (url_path_to_dir_path cwd url_path) = true
  · rw [if_pos hex] at hmk
    injection hmk with hrec
    subst hrec
    refine ⟨by simp, by intro h; simp [h], ?_⟩
    intro hdir
    rw [listing_ok fs cwd _ hdir]
    unfold render_all parent_link_html
    by_cases hroot : url_path = []
    · simp [hroot]
    · simp [hroot]
  · rw [if_neg hex] at hmk
    exact absurd hmk (by simp)

theorem lookup_eq_none_of_not_mem (k : Str) :
    ∀ l : List (Str × Str), k ∉ l.map Prod.fst → l.lookup k = none := by
  intro l
  induction l with
  | nil => intro _; rfl
  | cons p rest ih =>
    intro h
    obtain ⟨a, b⟩ := p
    simp only [List.map_cons, List.mem_cons] at h
    push_neg at h
    obtain ⟨h1, h2⟩ := h
    have e1 : (a == k) = false := beq_eq_false_iff_ne.mpr (Ne.symm h1)
    have e2 : (k == a) = false := beq_eq_false_iff_ne.mpr h1
    simp [List.lookup, e1, e2, ih h2]

theorem map_update_id (k v : Str) :
    ∀ t : List (Str × Str), (∀ p ∈ t, p.1 ≠ k) →
      t.map (fun p => if p.1 = k then (p.1, v) else p) = t := by
  intro t
  induction t with
  | nil => intro _; rfl
  | cons q qs ih =>
    intro h
    rw [List.map_cons, if_neg (h q (List.mem_cons_self _ _)),
      ih (fun p hp => h p (List.mem_cons_of_mem _ hp))]

theorem dict_update_cons (d : List (Str × Str)) (kv : Str × Str)
    (rest : List (Str × Str)) :
    dict_update d (kv :: rest) =
      dict_update
        (if d.any (fun p => p.1 == kv.1) then
          d.map (fun p => if p.1 = kv.1 then (p.1, kv.2) else p)
        else d ++ [kv]) rest := rfl

theorem dict_update_two (k1 k2 : Str) (hk : k1 ≠ k2) :
    ∀ (e t : List (Str × Str)) (s c : Str),
      (e.map Prod.fst).Nodup →
      (∀ p ∈ t, p.1 ≠ k1 ∧ p.1 ≠ k2) →
      (∀ p ∈ e, ∀ q ∈ t, p.1 ≠ q.1) →
      dict_update ([(k1, s), (k2, c)] ++ t) e =
        [(k1, (e.lookup k1).getD s), (k2, (e.lookup k2).getD c)] ++ t
          ++ e.filter (fun p => p.1 ≠ k1 ∧ p.1 ≠ k2) := by
  intro e
  induction e with
  | nil => intro t s c _ _ _; simp [dict_update]
  | cons kv rest ih =>
    intro t s c hnd ht hdisj
    obtain ⟨k, v⟩ := kv
    simp only [List.map_cons, List.nodup_cons] at hnd
    obtain ⟨hknotin, hndrest⟩ := hnd
    rw [dict_update_cons]
    have hlk : rest.lookup k = none := lookup_eq_none_of_not_mem k rest hknotin
    by_cases hk1 : k = k1
    · subst hk1
      rw [if_pos (by simp)]
      have hmap : ([(k, s), (k2, c)] ++ t).map
          (fun p => if p.1 = k then ((p : Str × Str).1, v) else p) =
          [(k, v), (k2, c)] ++ t := by
        simp only [List.map_append, List.map_cons, List.map_nil, if_pos rfl,
          if_neg (Ne.symm hk)]
        rw [map_update_id k v t (fun p hp => (ht p hp).1)]
        simp
      rw [hmap, ih t v c hndrest ht (fun p hp q hq => hdisj p (List.mem_cons_of_mem _ hp) q hq)]
      have e1 : (k == k2) = false := beq_eq_false_iff_ne.mpr hk
      have e2 : (k2 == k) = false := beq_eq_false_iff_ne.mpr (Ne.symm hk)
      simp [List.lookup, hlk, e1, e2, List.filter_cons]
    · by_cases hk2 : k = k2
      · subst hk2
        rw [if_pos (by simp)]
        have hmap : ([(k1, s), (k, c)] ++ t).map
            (fun p => if p.1 = k then ((p : Str × Str).1, v) else p) =
            [(k1, s), (k, v)] ++ t := by
          simp only [List.map_append, List.map_cons, List.map_nil, if_pos rfl,
            if_neg hk]
          rw [map_update_id k v t (fun p hp => (ht p hp).2)]
          simp
        rw [hmap, ih t s v hndrest ht (fun p hp q hq => hdisj p (List.mem_cons_of_mem _ hp) q hq)]
        have e1 : (k == k1) = false := beq_eq_false_iff_ne.mpr hk1
        have e2 : (k1 == k) = false := beq_eq_false_iff_ne.mpr (Ne.symm hk1)
        simp [List.lookup, hlk, e1, e2, List.filter_cons]
      · have hany : (([(k1, s), (k2, c)] ++ t).any (fun p => p.1 == k)) = false := by
          rw [List.any_eq_false]
          intro p hp
          simp only [Bool.not_eq_true, beq_eq_false_iff_ne]
          rcases List.mem_append.mp hp with hp | hp
          · simp only [List.mem_cons, List.mem_singleton] at hp
            rcases hp with hp | hp | hp
            · subst hp; exact fun h => hk1 h.symm
            · subst hp; exact fun h => hk2 h.symm
            · exact absurd hp (List.not_mem_nil p)
          · exact fun h => (hdisj (k, v) (List.mem_cons_self _ _) p hp) h.symm
        rw [if_neg (by rw [hany]; simp)]
        have hT : ([(k1, s), (k2, c)] ++ t) ++ [(k, v)] =
            [(k1, s), (k2, c)] ++ (t ++ [(k, v)]) := by
          simp [List.append_assoc]
        rw [hT, ih (t ++ [(k, v)]) s c hndrest
          (by
            intro p hp
            rcases List.mem_append.mp hp with hp | hp
            · exact ht p hp
            · simp only [List.mem_singleton] at hp
              subst hp
              exact ⟨hk1, hk2⟩)
          (by
            intro p hp q hq
            rcases List.mem_append.mp hq with hq | hq
            · exact hdisj p (List.mem_cons_of_mem _ hp) q hq
            · simp only [List.mem_singleton] at hq
              subst hq
              intro h
              refine hknotin ?_
              rw [show k = p.1 from h.symm]
              exact List.mem_map_of_mem Prod.fst hp)]
        have e1 : (k == k1) = false := beq_eq_false_iff_ne.mpr hk1
        have e2 : (k1 == k) = false := beq_eq_false_iff_ne.mpr (Ne.symm hk1)
        have e3 : (k == k2) = false := beq_eq_false_iff_ne.mpr hk2
        have e4 : (k2 == k) = false := beq_eq_false_iff_ne.mpr (Ne.symm hk2)
        simp [List.lookup, e1, e2, e3, e4, List.filter_cons, hk1, hk2,
          List.append_assoc]

/-- C8: the header block starts from the two entry base header set, extra
entries replace base entries with the same key in place (entries with fresh
keys are appended behind them), and every resulting entry is serialized as
key, colon, space, value, CRLF in that deterministic order; an absent extra
mapping serializes the base set alone. -/
theorem response_headers_override (e : List (Str × Str))
    (hnd : (e.map Prod.fst).Nodup) :
    response_headers none = format_headers headers ∧
    response_headers (some e) =
      format_headers
        ([("Server".data, (e.lookup ("Server".data)).getD ("CrudeServer".data)),
          ("Content-Type".data, (e.lookup ("Content-Type".data)).getD ("text/html".data))]
          ++ e.filter (fun p => p.1 ≠ "Server".data ∧ p.1 ≠ "Content-Type".data)) := by
  refine ⟨rfl, ?_⟩
  by_cases he : e = []
  · subst he; rfl
  · have hstep : response_headers (some e) = format_headers (dict_update headers e) := by
      show format_headers (if e = [] then headers else dict_update headers e) = _
      rw [if_neg he]
    have h2 := dict_update_two ("Server".data) ("Content-Type".data) (by decide) e []
      ("CrudeServer".data) ("text/html".data) hnd (by simp) (by simp)
    simp only [List.append_nil] at h2
    have hbase : (headers : List (Str × Str)) =
        [("Server".data, "CrudeServer".data), ("Content-Type".data, "text/html".data)] := rfl
    rw [hstep, hbase, h2]

/-- A concrete extra header mapping for the override witness: one base key
overridden and one fresh key. -/
def extraDemo : List (Str × Str) :=
  [("Content-Type".data, "text/plain".data), ("X-Custom".data, "1".data)]

theorem response_headers_override_witness :
    ((extraDemo.map Prod.fst).Nodup) ∧
    (response_headers none = format_headers headers ∧
      response_headers (some extraDemo) =
        format_headers
          ([("Server".data,
              (extraDemo.lookup ("Server".data)).getD ("CrudeServer".data)),
            ("Content-Type".data,
              (extraDemo.lookup ("Content-Type".data)).getD ("text/html".data))]
            ++ extraDemo.filter
                (fun p => p.1 ≠ "Server".data ∧ p.1 ≠ "Content-Type".data))) :=
  ⟨by decide, response_headers_override extraDemo (by decide)⟩

instance (r p : Str) : Decidable (insideRoot r p) := by
  unfold insideRoot
  exact inferInstance

/-- C1 fails as stated: the path resolved for the url path dotdot lies outside
the root after normalization and it exists on the filesystem, yet the request
is not treated as NotFound; the server enumerates the outside directory and
answers 200 with its listing, because no containment check is performed. -/
theorem traversal_escapes_root :
    ¬ insideRoot cwdDemo (url_path_to_dir_path cwdDemo ("..".data)) ∧
    demoFS.pexists (url_path_to_dir_path cwdDemo ("..".data)) = true ∧
    handle_request demoFS cwdDemo "GET /.. HTTP/1.1\r\n\r\n".data =
      Except.ok (response_line 200
        ++ response_headers (some [("Content-Type".data, "text/html".data)])
        ++ "\r\n".data
        ++ "<html><body><a href=\"/\">[parent directory]</a><br>www<br>secret.txt<br></body></html>".data) :=
  ⟨by decide, by decide, by rfl⟩

/-- C1 amended: resolution applies no containment check at all.  Whenever the
resolved path exists and is a directory it is enumerated and served with a
200 listing, even when its normalized form lies outside the root; only a
nonexistent resolved path is treated as NotFound. -/
theorem resolve_no_containment_check (fs : FS) (cwd u : Str)
    (hout : ¬ insideRoot cwd (url_path_to_dir_path cwd (pyStrip '/' u)))
    (hex : fs.pexists (url_path_to_dir_path cwd (pyStrip '/' u)) = true)
    (hdir : fs.isdir (url_path_to_dir_path cwd (pyStrip '/' u)) = true) :
    handle_GET fs cwd { method := "GET".data, uri := some u, http_version := "1.1".data } =
      Except.ok (response_line 200
        ++ response_headers (some [("Content-Type".data, "text/html".data)])
        ++ "\r\n".data
        ++ render_all fs cwd
            { dir_path := url_path_to_dir_path cwd (pyStrip '/' u)
              is_root_dir := pyStrip '/' u == []
              parent_dir :=
                if (pyStrip '/' u == []) then []
                else dirname (url_path_to_dir_path cwd (pyStrip '/' u)) }) := by
  have hmk := make_of_pexists fs cwd (pyStrip '/' u) hex
  have hls := listing_ok fs cwd
    { dir_path := url_path_to_dir_path cwd (pyStrip '/' u)
      is_root_dir := pyStrip '/' u == []
      parent_dir :=
        if (pyStrip '/' u == []) then []
        else dirname (url_path_to_dir_path cwd (pyStrip '/' u)) } hdir
  unfold handle_GET
  simp only [hmk]
  rw [hls]

theorem resolve_no_containment_check_witness :
    ¬ insideRoot cwdDemo (url_path_to_dir_path cwdDemo (pyStrip '/' ("/..".data))) ∧
    demoFS.pexists (url_path_to_dir_path cwdDemo (pyStrip '/' ("/..".data))) = true ∧
    demoFS.isdir (url_path_to_dir_path cwdDemo (pyStrip '/' ("/..".data))) = true ∧
    handle_GET demoFS cwdDemo
        { method := "GET".data, uri := some ("/..".data), http_version := "1.1".data } =
      Except.ok (response_line 200
        ++ response_headers (some [("Content-Type".data, "text/html".data)])
        ++ "\r\n".data
        ++ render_all demoFS cwdDemo
            { dir_path := url_path_to_dir_path cwdDemo (pyStrip '/' ("/..".data))
              is_root_dir := pyStrip '/' ("/..".data) == []
              parent_dir :=
                if (pyStrip '/' ("/..".data) == []) then []
                else dirname (url_path_to_dir_path cwdDemo (pyStrip '/' ("/..".data))) }) :=
  ⟨by decide, by decide, by decide,
    resolve_no_containment_check demoFS cwdDemo ("/..".data)
      (by decide) (by decide) (by decide)⟩

theorem listing_parent_link_witness :
    DirListing.make demoFS cwdDemo ("sub".data) = some dlSubDemo ∧
    ((dlSubDemo.is_root_dir = true ↔ "sub".data = ([] : Str)) ∧
      ("sub".data ≠ ([] : Str) → dlSubDemo.parent_dir = dirname dlSubDemo.dir_path) ∧
      (demoFS.isdir dlSubDemo.dir_path = true →
        get_hyperlinked_dir_listing demoFS cwdDemo dlSubDemo =
          Except.ok ("<html><body>".data
            ++ (if "sub".data = ([] : Str) then []
                else "<a href=\"".data ++ dir_path_to_url_path cwdDemo dlSubDemo.parent_dir
                  ++ "\">[parent directory]</a><br>".data)
            ++ concatMap (entry_html demoFS cwdDemo dlSubDemo.dir_path)
                (demoFS.listdir dlSubDemo.dir_path)
            ++ "</body></html>".data))) :=
  ⟨by decide,
    listing_parent_link demoFS cwdDemo ("sub".data) dlSubDemo (by decide)⟩

theorem rstripChar_append_same (c : Char) (s : Str) :
    rstripChar c (s ++ [c]) = rstripChar c s := by
  unfold rstripChar
  simp [List.dropWhile_cons]

theorem rstripChar_of_getLast (c : Char) (s : Str) (h : s.getLast? ≠ some c) :
    rstripChar c s = s := by
  unfold rstripChar
  cases hs : s.reverse with
  | nil =>
    have : s = [] := by simpa using congrArg List.reverse hs
    simp [this]
  | cons a tl =>
    have ha : a ≠ c := by
      have hh : s.reverse.head? = s.getLast? := List.head?_reverse s
      rw [hs] at hh
      intro hac
      exact h (by rw [← hh, hac]; rfl)
    rw [List.dropWhile_cons, if_neg (by simp [ha]), ← hs, List.reverse_reverse]

theorem getLast?_append_right (l m : Str) (h : m ≠ []) :
    (l ++ m).getLast? = m.getLast? := by
  rw [List.getLast?_append]
  obtain ⟨a, ha⟩ : ∃ a, m.getLast? = some a := by
    cases hm : m.getLast? with
    | none => exact absurd (List.getLast?_eq_none_iff.mp hm) h
    | some a => exact ⟨a, rfl⟩
  rw [ha]
  rfl

theorem replaceSepChar_id (s : Str) : replaceSepChar s = s := by
  unfold replaceSepChar
  have h : (fun c : Char => if c = '/' then '/' else c) = id := by
    funext c
    by_cases hc : c = '/' <;> simp [hc]
  rw [h, List.map_id]

theorem pathJoin_rel (a b : Str) (hb : b.head? ≠ some '/')
    (ha : a ≠ []) (ha2 : a.getLast? ≠ some '/') :
    pathJoin a b = a ++ '/' :: b := by
  unfold pathJoin
  rw [if_neg hb, if_neg (by push_neg; exact ⟨ha, ha2⟩)]

theorem dirname_append_slash (x : Str) (hx : x ≠ []) (hlast : x.getLast? ≠ some '/') :
    dirname (x ++ ['/']) = x := by
  have hhead : ((x ++ ['/']).reverse.dropWhile (fun a => a != '/')).reverse = x ++ ['/'] := by
    simp [List.dropWhile_cons]
  have hnotall : ¬ (x ++ ['/'] = [] ∨ ∀ c ∈ x ++ ['/'], c = '/') := by
    push_neg
    refine ⟨by simp, ?_⟩
    refine ⟨x.getLast hx, ?_, ?_⟩
    · exact List.mem_append.mpr (Or.inl (List.getLast_mem hx))
    · intro hc
      exact hlast (by rw [List.getLast?_eq_getLast x hx, hc])
  unfold dirname
  simp only [hhead]
  rw [if_neg hnotall, rstripChar_append_same, rstripChar_of_getLast '/' x hlast]

theorem resolve_eq_of_rel (cwd p : Str)
    (hcne : cwd ≠ []) (hclast : cwd.getLast? ≠ some '/')
    (hp1 : p.head? ≠ some '/') (hp2 : p.getLast? ≠ some '/') :
    url_path_to_dir_path cwd p = if p = [] then cwd else cwd ++ '/' :: p := by
  by_cases hp : p = []
  · subst hp
    rw [if_pos rfl]
    show dirname (pathJoin cwd []) = cwd
    rw [pathJoin_rel cwd [] (by simp) hcne hclast]
    exact dirname_append_slash cwd hcne hclast
  · rw [if_neg hp]
    unfold url_path_to_dir_path
    rw [if_neg hp]
    show dirname (pathJoin cwd (p ++ ['/'])) = cwd ++ '/' :: p
    rw [pathJoin_rel cwd (p ++ ['/'])
        (by
          cases p with
          | nil => exact absurd rfl hp
          | cons a l => simpa using hp1)
        hcne hclast]
    have hassoc : cwd ++ '/' :: (p ++ ['/']) = (cwd ++ '/' :: p) ++ ['/'] := by simp
    rw [hassoc]
    exact dirname_append_slash (cwd ++ '/' :: p) (by simp)
      (by
        rw [getLast?_append_right cwd ('/' :: p) (by simp)]
        rw [show ('/' :: p) = ['/'] ++ p from rfl,
          getLast?_append_right ['/'] p hp]
        exact hp2)

theorem unresolve_strip (cwd rest : Str) :
    dir_path_to_url_path cwd (cwd ++ rest) =
      if rest = [] then ['/'] else rest := by
  unfold dir_path_to_url_path
  rw [if_pos (List.isPrefixOf_iff_prefix.mpr (List.prefix_append cwd rest)),
    List.drop_left, replaceSepChar_id]

/-- C5: resolving a relative path rooted under the base directory and mapping
the resolved directory back yields its normalized url form, a leading slash
followed by the path itself (the empty path, the root, maps to the single
slash); unresolve falls back to the single slash both when its input does not
carry the root prefix and when stripping the prefix leaves nothing. -/
theorem resolve_unresolve_roundtrip (cwd p d : Str)
    (hcne : cwd ≠ []) (hclast : cwd.getLast? ≠ some '/')
    (hp1 : p.head? ≠ some '/') (hp2 : p.getLast? ≠ some '/')
    (hd : cwd.isPrefixOf d = false) :
    dir_path_to_url_path cwd (url_path_to_dir_path cwd p) =
      (if p = [] then ['/'] else '/' :: p) ∧
    dir_path_to_url_path cwd d = ['/'] ∧
    dir_path_to_url_path cwd cwd = ['/'] := by
  refine ⟨?_, ?_, ?_⟩
  · rw [resolve_eq_of_rel cwd p hcne hclast hp1 hp2]
    by_cases hp : p = []
    · subst hp
      rw [if_pos rfl, if_pos rfl]
      have := unresolve_strip cwd []
      simpa using this
    · rw [if_neg hp, if_neg hp, unresolve_strip cwd ('/' :: p), if_neg (by simp)]
  · unfold dir_path_to_url_path
    rw [hd]
    simp
  · have := unresolve_strip cwd []
    simpa using this

theorem resolve_unresolve_roundtrip_witness :
    ("/srv/www".data ≠ ([] : Str)) ∧
    ("/srv/www".data : Str).getLast? ≠ some '/' ∧
    ("sub".data : Str).head? ≠ some '/' ∧
    ("sub".data : Str).getLast? ≠ some '/' ∧
    ("/srv/www".data : Str).isPrefixOf ("/other".data) = false ∧
    (dir_path_to_url_path "/srv/www".data
        (url_path_to_dir_path "/srv/www".data ("sub".data)) =
      (if ("sub".data : Str) = [] then ['/'] else '/' :: "sub".data) ∧
    dir_path_to_url_path "/srv/www".data ("/other".data) = ['/'] ∧
    dir_path_to_url_path "/srv/www".data "/srv/www".data = ['/']) :=
  ⟨by decide, by decide, by decide, by decide, by decide,
    resolve_unresolve_roundtrip "/srv/www".data ("sub".data) ("/other".data)
      (by decide) (by decide) (by decide) (by decide) (by decide)⟩

end WebDirListing
